import Mathlib

/-!
Verification development for the live-stream capture orchestrator
(`ytbot.py`, `ytbot_update_by_claude.py`, `ytbot_youtube_data_api_v3.py`).

Each Python function relevant to the checked properties is shallowly
embedded as an executable Lean definition; effects (queue puts, database
writes) are made explicit as returned lists and counters, and upstream
calls (yt-dlp, subprocess runs) are abstracted as oracle parameters.
The first part of the file holds the definitions, the second the theorems.
-/

namespace Ytb

/-- Number of pipeline retries allowed (`MAX_RETRIES = 3` in all three scripts). -/
def MAX_RETRIES : Nat := 3

/-- Python's `needle in hay` substring test on strings. -/
def containsSub (needle hay : String) : Bool :=
  (hay.toList.tails).any (fun t => needle.toList.isPrefixOf t)

/-! ## Classifier of `ytbot_update_by_claude.py` (`TabMonitor._classify_video_status`)

The metadata record is projected onto the fields the classifier reads.
`release_timestamp` is `none` when the key is absent, `None`, or the string
`"null"` (all of which the source coerces to `0`); `was_live` is `none` when
the key is absent (`info.get("was_live", None)`), and the source compares it
with `is False`, so only an explicit `false` passes. -/

namespace TabClaude

/-- One entry of the `formats` list; the source reads
`f.get("url", "") or f.get("manifest_url", "")`, with `""` as the default. -/
structure Format where
  url : String
  manifest_url : String
deriving DecidableEq, Repr

/-- Projection of the yt-dlp metadata dict onto the fields
`TabMonitor._classify_video_status` reads. -/
structure TabInfo where
  release_timestamp : Option Int
  duration : Option Int
  formats : List Format
  is_live : Bool
  live_status : String
  was_live : Option Bool
deriving DecidableEq, Repr

/-- `release_ts = 0 if release_ts in [None, "null"] else int(release_ts)`. -/
def releaseTs (info : TabInfo) : Int :=
  info.release_timestamp.getD 0

/-- Python truthiness of `info.get("duration", None)` (together with the
`isinstance(..., int)` test of the source): `None` and `0` are falsy. -/
def durationTruthy (d : Option Int) : Bool :=
  match d with
  | none => false
  | some n => n != 0

/-- `f.get("url", "") or f.get("manifest_url", "")`. -/
def fmtSource (f : Format) : String :=
  if f.url ≠ "" then f.url else f.manifest_url

/-- The closed set of status strings this classifier can return. -/
inductive TabStatus where
  | live
  | upcoming_launched
  | upcoming_scheduled
  | live_VOD
  | live_VOD_Upcoming
  | VOD
deriving DecidableEq, Repr

/-- `TabMonitor._classify_video_status` of `ytbot_update_by_claude.py`
(lines 127-180).  The guard of rule 4 keeps Python's operator precedence:
`A or B and C` parses as `A ∨ (B ∧ C)`.  The comprehension filter
`if "url" or "manifest_url" in f` is always true in Python, so `sources`
covers every format. -/
def classify_video_status (info : TabInfo) (current_time : Int) : TabStatus :=
  let release_ts := releaseTs info
  let has_duration := durationTruthy info.duration
  let sources := info.formats.map fmtSource
  let has_live_broadcast := sources.any (fun s => containsSub "yt_live_broadcast" s)
  let has_premiere_broadcast := sources.any (fun s => containsSub "yt_premiere_broadcast" s)
  if has_live_broadcast ∧ info.is_live ∧ info.live_status = "is_live" ∧
      info.was_live = some false ∧ ¬ has_duration then
    .live
  else if has_premiere_broadcast ∧ info.live_status = "is_live" ∧ release_ts ≠ 0 ∧
      info.was_live = some false ∧ has_duration then
    .upcoming_launched
  else if info.live_status = "is_upcoming" ∧ release_ts ≠ 0 ∧ release_ts ≥ current_time ∧
      info.was_live = some false ∧ info.formats = [] then
    .upcoming_scheduled
  else if info.live_status = "post_live" ∨ (info.live_status = "was_live" ∧ release_ts ≠ 0) then
    .live_VOD
  else if info.live_status = "not_live" ∧ info.was_live = some false ∧ release_ts ≠ 0 then
    .live_VOD_Upcoming
  else
    .VOD

end TabClaude

/-! ## `ytbot.py`: metadata classifier, dispatch handler, video processor,
monitor tick

`VideoProcessor._classify_video_status` (lines 909-926) reads the flags
`isLiveNow`, `is_live`, `upcoming`, `was_live` and `release_timestamp`.
`VideoProcessor._handle_video_status` (lines 928-959) returns a boolean
(mark-notified) and performs queue puts; the embedding returns the boolean
together with the list of URLs passed to `video_queue.add_video`.
`VideoProcessor.process_new_videos` (lines 837-882) mutates the in-memory
seen set and notified map and calls `save_data`; the embedding returns the
new state plus the enqueued URLs and the number of `save_data` calls.
`MonitorService.start` (lines 995-1043): one loop body (a tick) is embedded
as a function of the probed ID list and the prior state.  A single `now`
parameter stands for the epoch seconds `int(time.time())`; the upstream
yt-dlp metadata fetch is the oracle `fetch`, which returns `none` when the
extraction raises or yields falsy info. -/

namespace Ytbot

/-- Projection of the yt-dlp metadata dict onto the fields
`VideoProcessor._classify_video_status` of `ytbot.py` reads. -/
structure YtInfo where
  isLiveNow : Bool
  is_live : Bool
  upcoming : Bool
  was_live : Bool
  release_timestamp : Option Int
deriving DecidableEq, Repr

/-- The closed set of status strings `ytbot.py`'s classifier can return. -/
inductive YtStatus where
  | live
  | upcoming_scheduled
  | upcoming_pre_launch
  | live_VOD
  | VOD
deriving DecidableEq, Repr

/-- `VideoProcessor._classify_video_status` of `ytbot.py` (lines 909-926). -/
def classify_video_status (info : YtInfo) (now : Int) : YtStatus :=
  if info.isLiveNow ∧ info.was_live then .live
  else if info.upcoming then
    (if info.release_timestamp.getD 0 > now then .upcoming_scheduled
     else .upcoming_pre_launch)
  else if info.is_live then .live_VOD
  else .VOD

/-- `f"https://www.youtube.com/watch?v={video_id}"`. -/
def video_url_of (video_id : String) : String :=
  "https://www.youtube.com/watch?v=" ++ video_id

/-- `VideoProcessor._handle_video_status` of `ytbot.py` (lines 928-959).
First component: the returned boolean (whether the video is marked
notified).  Second component: the URLs passed to `video_queue.add_video`
during the call.  The wildcard arm covers exactly the statuses
`upcoming_pre_launch`, `live`, `live_VOD`, `VOD` of the source's membership
test; the source's trailing `return False` is unreachable for the five
statuses the classifier can produce.  Log calls are omitted. -/
def handle_video_status (status : YtStatus) (video_url : String)
    (published_timestamp current_timestamp : Int) : Bool × List String :=
  match status with
  | .upcoming_scheduled =>
      if published_timestamp > current_timestamp then (false, [])
      else (true, [])
  | _ => (true, [video_url])

/-- In-memory state of `VideoProcessor`: the seen set
`old_video_ids_memory` and the notified map `notified_video_ids_memory`. -/
structure ProcState where
  old_video_ids_memory : Finset String
  notified_video_ids_memory : String → Option Int

/-- Result of a `process_new_videos` call: the new in-memory state, the
URLs enqueued during the call, and the number of `save_data` calls. -/
structure ProcResult where
  old_video_ids_memory : Finset String
  notified_video_ids_memory : String → Option Int
  enqueued : List String
  saves : Nat

/-- `VideoProcessor.fetch_and_classify_video_metadata` (lines 884-907):
returns `none` on extraction failure or falsy info, otherwise the metadata
together with its classification. -/
def fetch_and_classify (fetch : String → Option YtInfo) (now : Int)
    (video_id : String) : Option (YtInfo × YtStatus) :=
  (fetch video_id).map (fun p => (p, classify_video_status p now))

/-- The `_handle_video_status` call made for one video inside the
`process_new_videos` loop, with `published_timestamp =
metadata.get("release_timestamp", 0) or 0`. -/
def notify_decision (fetch : String → Option YtInfo) (now : Int)
    (video_id : String) : Option (Bool × List String) :=
  (fetch_and_classify fetch now video_id).map (fun p =>
    handle_video_status p.2 (video_url_of video_id) (p.1.release_timestamp.getD 0) now)

/-- The `videos_to_notify` dict built by the `process_new_videos` loop,
as an association list in iteration order (`videos_to_notify[video_id] =
current_timestamp`). -/
def videos_to_notify (fetch : String → Option YtInfo) (now : Int)
    (new_videos : List String) : List (String × Int) :=
  new_videos.filterMap (fun vid =>
    match notify_decision fetch now vid with
    | some (true, _) => some (vid, now)
    | _ => none)

/-- All URLs passed to `video_queue.add_video` over the
`process_new_videos` loop. -/
def enqueued_urls (fetch : String → Option YtInfo) (now : Int)
    (new_videos : List String) : List String :=
  new_videos.flatMap (fun vid =>
    match notify_decision fetch now vid with
    | some p => p.2
    | none => [])

/-- Python's `dict.update`: keys present in `vtn` take the new value,
everything else keeps the old one.  (`videos_to_notify` is keyed by
elements of a Python set, so duplicate keys do not arise.) -/
def updateNotified (m : String → Option Int) (vtn : List (String × Int)) :
    String → Option Int :=
  fun k =>
    match vtn.lookup k with
    | some t => some t
    | none => m k

/-- `VideoProcessor.process_new_videos` of `ytbot.py` (lines 837-882):
empty input returns immediately; otherwise the notified map is updated
(and saved) when `videos_to_notify` is non-empty, and the seen set is
always updated with `new_videos` and saved. -/
def process_new_videos (fetch : String → Option YtInfo) (now : Int)
    (st : ProcState) (new_videos : List String) : ProcResult :=
  if new_videos.isEmpty then
    ⟨st.old_video_ids_memory, st.notified_video_ids_memory, [], 0⟩
  else
    let vtn := videos_to_notify fetch now new_videos
    ⟨st.old_video_ids_memory ∪ new_videos.toFinset,
     if vtn.isEmpty then st.notified_video_ids_memory
     else updateNotified st.notified_video_ids_memory vtn,
     enqueued_urls fetch now new_videos,
     (if vtn.isEmpty then 0 else 1) + 1⟩

/-- The set of video IDs carrying a notified timestamp. -/
def notifiedKeys (m : String → Option Int) : Set String := {k | m k ≠ none}

/-- State of `MonitorService.start`'s loop: the processor's in-memory
stores and the `first_iteration` flag. -/
structure MonState where
  old_video_ids_memory : Finset String
  notified_video_ids_memory : String → Option Int
  first_iteration : Bool

/-- Result of one tick: the next state, the URLs enqueued during the tick,
and the number of `save_data` calls performed. -/
structure TickResult where
  state : MonState
  enqueued : List String
  saves : Nat

/-- One body of the `while True` loop of `MonitorService.start` in
`ytbot.py` (lines 1010-1039), given the ID set `new_video_ids` returned by
`tab_monitor.monitor_tabs` (as a duplicate-free list): on the first
iteration all probed IDs are added to the seen set and saved, and nothing
else happens; afterwards the genuinely new IDs are diffed out and handed
to `process_new_videos` (which the service skips when the diff is empty). -/
def monitor_tick (fetch : String → Option YtInfo) (now : Int)
    (new_video_ids : List String) (s : MonState) : TickResult :=
  if s.first_iteration then
    ⟨⟨s.old_video_ids_memory ∪ new_video_ids.toFinset,
      s.notified_video_ids_memory, false⟩, [], 1⟩
  else
    let new_videos := new_video_ids.filter
      (fun v => decide (v ∉ s.old_video_ids_memory))
    if new_videos.isEmpty then
      ⟨⟨s.old_video_ids_memory, s.notified_video_ids_memory, false⟩, [], 0⟩
    else
      let r := process_new_videos fetch now
        ⟨s.old_video_ids_memory, s.notified_video_ids_memory⟩ new_videos
      ⟨⟨r.old_video_ids_memory, r.notified_video_ids_memory, false⟩,
       r.enqueued, r.saves⟩

/-- `success = (streamlink_rc == 0 and ffmpeg_rc == 0)` computed by
`VideoQueue.process_queue` in `ytbot.py` (line 785) from the exit-code
pair of `StreamManager.start_stream`. -/
def start_stream_success (rc : Int × Int) : Bool :=
  rc.1 == 0 && rc.2 == 0

/-- Per-job behaviour of `VideoQueue.process_queue` in `ytbot.py`
(lines 768-795): for each popped job it calls
`StreamManager.start_stream` exactly once and logs the derived success
flag; there is no retry path.  First component: the success flag for the
job's only attempt (its exit-code pair is `rc`).  Second component: the
number of `start_stream` invocations made for the job. -/
def process_queue_job (rc : Int × Int) : Bool × Nat :=
  (start_stream_success rc, 1)

end Ytbot

/-! ## `ytbot_youtube_data_api_v3.py`: the retrying single-process runner -/

namespace DataApi

/-- `StreamManager.start_streamlink` of `ytbot_youtube_data_api_v3.py`
(lines 552-609), with the subprocess run abstracted as the oracle
`attempt`: `attempt r` is true when the run made with the counter value
`retries = r` exits with code 0.  On a failing run with
`retries < MAX_RETRIES` the function recurses with `retries + 1`;
otherwise it reports terminal failure. -/
def start_streamlink (attempt : Nat → Bool) (retries : Nat) : Bool :=
  if attempt retries then true
  else if retries < Ytb.MAX_RETRIES then start_streamlink attempt (retries + 1)
  else false
termination_by Ytb.MAX_RETRIES + 1 - retries
decreasing_by unfold Ytb.MAX_RETRIES at *; omega

end DataApi

/-! ## Interleaving model of `VideoQueue` (`ytbot.py` lines 728-801)

`add_video` appends to the queue and calls
`asyncio.create_task(self.process_queue())` when `self.processing` is
false; the created task's body runs later.  `process_queue` sets
`processing = True` when its body starts, pops jobs while the queue is
non-empty, and clears the flag when it exits.  The model tracks the queue,
the flag, the number of created-but-not-yet-started drain tasks
(`pending`) and the number of started, not-yet-exited drains (`active`);
events may interleave arbitrarily. -/

namespace VideoQueue

/-- Shared state of one `VideoQueue` instance. -/
structure QState where
  queue : List String
  processing : Bool
  pending : Nat
  active : Nat
deriving DecidableEq, Repr

/-- Atomic scheduler events: an `add_video` call runs to completion
(`add`), a created drain task begins executing its body (`startDrain`),
a running drain pops one job (`popJob`), a running drain observes an empty
queue and exits (`exitDrain`). -/
inductive QEvent where
  | add (url : String)
  | startDrain
  | popJob
  | exitDrain
deriving DecidableEq, Repr

/-- Initial state of a fresh `VideoQueue`. -/
def qinit : QState := ⟨[], false, 0, 0⟩

/-- One event of the interleaving semantics; `none` means the event is not
enabled in `s`. -/
def qstep (s : QState) : QEvent → Option QState
  | .add url =>
      some ⟨s.queue ++ [url], s.processing,
            if s.processing then s.pending else s.pending + 1, s.active⟩
  | .startDrain =>
      if s.pending = 0 then none
      else some ⟨s.queue, true, s.pending - 1, s.active + 1⟩
  | .popJob =>
      match s.queue with
      | [] => none
      | _ :: rest =>
          if s.active = 0 then none
          else some ⟨rest, s.processing, s.pending, s.active⟩
  | .exitDrain =>
      if s.active = 0 ∨ s.queue ≠ [] then none
      else some ⟨s.queue, false, s.pending, s.active - 1⟩

/-- Run a sequence of events from a state. -/
def qrun (s : QState) : List QEvent → Option QState
  | [] => some s
  | e :: es =>
      match qstep s e with
      | none => none
      | some s2 => qrun s2 es

/-- Number of live drains: created tasks that have not yet exited. -/
def liveDrains (s : QState) : Nat := s.pending + s.active

/-- States reachable under the restriction that every `add_video` call
happens only when no created drain task is still waiting to start
(`pending = 0`), i.e. each created drain sets the `processing` flag before
the next add is issued. -/
inductive ReachSeq : QState → Prop where
  | init : ReachSeq qinit
  | step {s e s2} : ReachSeq s → qstep s e = some s2 →
      (∀ url, e = .add url → s.pending = 0) → ReachSeq s2

end VideoQueue

/-! ## URL validation and channel fan-out of `ytbot.py`'s `TabMonitor` -/

namespace TabMonitor

/-- Result of Python's `urlparse` projected onto the fields
`_validate_urls` reads. -/
structure ParsedUrl where
  scheme : String
  netloc : String
  path : String
deriving DecidableEq, Repr

/-- Python's `str.rstrip("/")`: drop every trailing slash. -/
def rstripSlash (s : String) : String :=
  String.mk ((s.toList.reverse.dropWhile (fun c => c = '/')).reverse)

/-- `f"{parsed.scheme}://{parsed.netloc}{parsed.path}".rstrip("/")`. -/
def cleanUrl (p : ParsedUrl) : String :=
  rstripSlash (p.scheme ++ "://" ++ p.netloc ++ p.path)

/-- The acceptance test of `TabMonitor._validate_urls` (`ytbot.py`
lines 187-198): `parsed.scheme and parsed.netloc and "youtube.com" in
parsed.netloc`. -/
def acceptUrl (p : ParsedUrl) : Bool :=
  p.scheme != "" && p.netloc != "" && containsSub "youtube.com" p.netloc

/-- `TabMonitor._validate_urls`: keep the accepted URLs, normalized. -/
def validate_urls (urls : List ParsedUrl) : List String :=
  urls.filterMap (fun p => if acceptUrl p then some (cleanUrl p) else none)

/-- Modelled from the spec: "rejected if the host is not the expected
video platform" — the host is the platform's domain itself or a subdomain
of it.  This definition follows the spec's words and exists only to be
compared with the source's `acceptUrl`. -/
def hostIsExpectedPlatform (netloc : String) : Bool :=
  netloc == "youtube.com" || ".youtube.com".toList.isSuffixOf netloc.toList

/-- Projection of the yt-dlp channel-listing response onto what
`TabMonitor._process_channel` reads: whether the `"entries"` key is
present, and its value (`none` models `None`); each entry either yields an
ID (`some id`, for a truthy dict with an `"id"` key) or nothing. -/
structure ChannelInfo where
  hasEntriesKey : Bool
  entries : Option (List (Option String))
deriving DecidableEq, Repr

/-- Outcome of the `ydl.extract_info` call for one channel URL: the call
raised (`err`), returned falsy info (`ok none`), or returned info. -/
inductive FetchResult where
  | err : FetchResult
  | ok : Option ChannelInfo → FetchResult
deriving DecidableEq, Repr

/-- `TabMonitor._process_channel` of `ytbot.py` (lines 200-232): any
exception is caught and yields the empty set; falsy info or a missing
`"entries"` key yields the empty set; otherwise the IDs are collected from
`info.get("entries") or []`. -/
def process_channel : FetchResult → Finset String
  | .err => ∅
  | .ok none => ∅
  | .ok (some info) =>
      if info.hasEntriesKey then ((info.entries.getD []).filterMap id).toFinset
      else ∅

/-- The chunking `[urls[i:i + chunk_size] for i in range(0, len(urls),
chunk_size)]` of `monitor_tabs`. -/
def chunksOf {α : Type} (n : Nat) (l : List α) : List (List α) :=
  if h1 : l.isEmpty then []
  else if _h2 : n = 0 then [l]
  else l.take n :: chunksOf n (l.drop n)
termination_by l.length
decreasing_by
  have hne : l ≠ [] := fun he => h1 (by simp [he])
  have hl : 0 < l.length := List.length_pos.mpr hne
  simp only [List.length_drop]
  omega

/-- `TabMonitor.monitor_tabs` of `ytbot.py` (lines 141-185) after URL
validation, as a function of the per-URL probe outcomes (order preserved):
chunks of size 3 are processed in sequence, and within each chunk every
probe's ID set is accumulated into `all_video_ids` (a failing probe has
already been collapsed to `∅` by `process_channel`, so no exception
reaches the gather loop). -/
def monitor_tabs (outcomes : List FetchResult) : Finset String :=
  (chunksOf 3 outcomes).foldl
    (fun all_video_ids chunk =>
      (chunk.map process_channel).foldl (· ∪ ·) all_video_ids) ∅

end TabMonitor

end Ytb

/-! # Theorems -/

namespace Ytb.TabClaude

/-- C2 (counterexample): a record with `live_status = "post_live"` and
`release_timestamp` absent (hence `release_ts = 0`) IS classified
`live_VOD`, because Python parses the rule-4 guard as
`ls == "post_live" or (ls == "was_live" and release_ts ...)`; the claim
states such a record is not classified `live_vod`. -/
theorem c2_post_live_zero_release_counterexample :
    classify_video_status ⟨none, none, [], false, "post_live", none⟩ 1000 = .live_VOD ∧
    releaseTs ⟨none, none, [], false, "post_live", none⟩ = 0 := by
  decide

/-- C2 (amended): the classifier returns `live_VOD` only when
`live_status = "post_live"` (with no constraint on `release_ts`), or when
`live_status = "was_live"` and `release_ts ≠ 0`. -/
theorem c2_live_vod_characterization (info : TabInfo) (now : Int)
    (h : classify_video_status info now = .live_VOD) :
    info.live_status = "post_live" ∨
      (info.live_status = "was_live" ∧ releaseTs info ≠ 0) := by
  unfold classify_video_status at h
  dsimp only at h
  split_ifs at h with g1 g2 g3 g4 g5
  · exact g4

/-- C2 (witness): the amended characterization applied to the concrete
`post_live` record with absent release timestamp. -/
theorem c2_live_vod_characterization_witness :
    (⟨none, none, [], false, "post_live", none⟩ : TabInfo).live_status = "post_live" ∨
      ((⟨none, none, [], false, "post_live", none⟩ : TabInfo).live_status = "was_live" ∧
        releaseTs ⟨none, none, [], false, "post_live", none⟩ ≠ 0) :=
  c2_live_vod_characterization ⟨none, none, [], false, "post_live", none⟩ 1000 (by decide)

/-- C6: a record with `live_status = "is_upcoming"`, `was_live = False`,
no formats, and `release_ts` equal to the current epoch second (with
`now > 0`) classifies as `upcoming_scheduled`: the
`release_ts >= current_time` comparison of rule 3 is inclusive at
equality. -/
theorem c6_upcoming_scheduled_inclusive_boundary (info : TabInfo) (now : Int)
    (h1 : info.live_status = "is_upcoming") (h2 : info.was_live = some false)
    (h3 : info.formats = []) (h4 : releaseTs info = now) (h5 : 0 < now) :
    classify_video_status info now = .upcoming_scheduled := by
  unfold classify_video_status
  dsimp only
  have hb : releaseTs info ≠ 0 ∧ releaseTs info ≥ now := by omega
  split_ifs with g1 g2 g3 g4 g5
  · exact absurd g1.2.2.1 (by rw [h1]; decide)
  · exact absurd g2.2.1 (by rw [h1]; decide)
  · rfl
  all_goals exact absurd ⟨h1, hb.1, hb.2, h2, h3⟩ g3

/-- C6 (witness): the boundary theorem applied to a concrete record whose
release timestamp equals the current time 50. -/
theorem c6_upcoming_scheduled_inclusive_boundary_witness :
    classify_video_status ⟨some 50, none, [], false, "is_upcoming", some false⟩ 50 =
      .upcoming_scheduled :=
  c6_upcoming_scheduled_inclusive_boundary
    ⟨some 50, none, [], false, "is_upcoming", some false⟩ 50
    rfl rfl rfl rfl (by decide)

end Ytb.TabClaude

namespace Ytb.Ytbot

/-- C1 (counterexample): for a video classified `upcoming_scheduled` whose
release timestamp 5 is ≤ the current time 10, `_handle_video_status` does
NOT both enqueue the video's URL and return true — it returns true but
enqueues nothing. -/
theorem c1_late_scheduled_counterexample :
    ¬ ((handle_video_status .upcoming_scheduled (video_url_of "v1") 5 10).1 = true ∧
       video_url_of "v1" ∈ (handle_video_status .upcoming_scheduled (video_url_of "v1") 5 10).2) := by
  decide

/-- C1 (amended): for every video classified `upcoming_scheduled` with
`release_ts ≤ now`, the dispatch handler marks the video as notified
(returns true) but does not enqueue anything: it only logs the "late"
message. -/
theorem c1_late_scheduled_notified_not_enqueued (video_url : String)
    (published current : Int) (h : published ≤ current) :
    handle_video_status .upcoming_scheduled video_url published current = (true, []) := by
  simp only [handle_video_status]
  rw [if_neg (by omega)]

/-- C1 (witness): the amended statement at the concrete late video
(release timestamp 3, current time 7). -/
theorem c1_late_scheduled_notified_not_enqueued_witness :
    handle_video_status .upcoming_scheduled (video_url_of "v1") 3 7 = (true, []) :=
  c1_late_scheduled_notified_not_enqueued (video_url_of "v1") 3 7 (by decide)

/-- C10: calling `process_new_videos` with an empty set of new videos is a
no-op: the seen set and the notified map are returned unchanged, nothing
is enqueued, and no `save_data` call is made. -/
theorem c10_empty_input_is_noop (fetch : String → Option YtInfo) (now : Int)
    (st : ProcState) :
    process_new_videos fetch now st [] =
      ⟨st.old_video_ids_memory, st.notified_video_ids_memory, [], 0⟩ := rfl

/-- Helper: a successful association-list lookup exhibits a member. -/
theorem lookup_eq_some_mem {l : List (String × Int)} {k : String} {t : Int}
    (h : l.lookup k = some t) : (k, t) ∈ l := by
  induction l with
  | nil => simp [List.lookup] at h
  | cons p rest ih =>
      obtain ⟨a, b⟩ := p
      rw [List.lookup] at h
      cases hka : (k == a) with
      | true =>
          rw [hka] at h
          simp only [Option.some.injEq] at h
          subst h
          have : k = a := by simpa using hka
          subst this
          exact List.mem_cons_self _ _
      | false =>
          rw [hka] at h
          exact List.mem_cons_of_mem _ (ih h)

/-- Helper: every key of the `videos_to_notify` accumulator comes from the
iterated list of new videos. -/
theorem videos_to_notify_key_mem {fetch : String → Option YtInfo} {now : Int}
    {new_videos : List String} {k : String} {t : Int}
    (h : (k, t) ∈ videos_to_notify fetch now new_videos) : k ∈ new_videos := by
  simp only [videos_to_notify, List.mem_filterMap] at h
  obtain ⟨vid, hvid, hf⟩ := h
  split at hf
  · simp only [Option.some.injEq, Prod.mk.injEq] at hf
    obtain ⟨rfl, rfl⟩ := hf
    exact hvid
  · cases hf

/-- C4: `process_new_videos` preserves the invariant
`Notified.keys ⊆ Seen`: if every notified ID is in the seen set before the
call, the same holds after it, because only IDs drawn from `new_videos`
are given a timestamp and all of `new_videos` enters the seen set. -/
theorem c4_notified_keys_subset_seen (fetch : String → Option YtInfo) (now : Int)
    (st : ProcState) (new_videos : List String)
    (h : notifiedKeys st.notified_video_ids_memory ⊆ ↑st.old_video_ids_memory) :
    notifiedKeys (process_new_videos fetch now st new_videos).notified_video_ids_memory ⊆
      ↑(process_new_videos fetch now st new_videos).old_video_ids_memory := by
  intro k hk
  cases he : new_videos.isEmpty with
  | true =>
      simp only [process_new_videos, he, if_pos] at hk ⊢
      exact h hk
  | false =>
      simp only [process_new_videos, he, Bool.false_eq_true, if_neg,
        not_false_iff] at hk ⊢
      by_cases hv : (videos_to_notify fetch now new_videos).isEmpty
      · rw [if_pos hv] at hk
        have := h hk
        simp only [Finset.coe_union, Set.mem_union]
        exact Or.inl this
      · rw [if_neg hv] at hk
        simp only [notifiedKeys, Set.mem_setOf_eq, updateNotified] at hk
        simp only [Finset.coe_union, Set.mem_union, Finset.mem_coe,
          List.mem_toFinset]
        cases hl : (videos_to_notify fetch now new_videos).lookup k with
        | some t =>
            exact Or.inr (videos_to_notify_key_mem (lookup_eq_some_mem hl))
        | none =>
            rw [hl] at hk
            exact Or.inl (h hk)

/-- C4 (witness): the invariant-preservation theorem applied to the empty
store with one new video and an oracle that fails every fetch. -/
theorem c4_notified_keys_subset_seen_witness :
    notifiedKeys (process_new_videos (fun _ => none) 0
        ⟨∅, fun _ => none⟩ ["a"]).notified_video_ids_memory ⊆
      ↑(process_new_videos (fun _ => none) 0
        ⟨∅, fun _ => none⟩ ["a"]).old_video_ids_memory :=
  c4_notified_keys_subset_seen (fun _ => none) 0 ⟨∅, fun _ => none⟩ ["a"]
    (fun _ hk => absurd rfl hk)

/-- C3: on the first tick, whatever ID set the fan-out returns, the
service only adds those IDs to the seen set and persists once; nothing is
enqueued and the notified map is untouched. -/
theorem c3_first_tick_seeds_only (fetch : String → Option YtInfo) (now : Int)
    (new_video_ids : List String) (s : MonState)
    (h : s.first_iteration = true) :
    monitor_tick fetch now new_video_ids s =
      ⟨⟨s.old_video_ids_memory ∪ new_video_ids.toFinset,
        s.notified_video_ids_memory, false⟩, [], 1⟩ := by
  simp [monitor_tick, h]

/-- C3 (witness): the first-tick theorem at a concrete fresh state and a
probe returning two IDs. -/
theorem c3_first_tick_seeds_only_witness :
    monitor_tick (fun _ => none) 0 ["a", "b"] ⟨∅, fun _ => none, true⟩ =
      ⟨⟨(∅ : Finset String) ∪ (["a", "b"] : List String).toFinset,
        fun _ => none, false⟩, [], 1⟩ :=
  c3_first_tick_seeds_only (fun _ => none) 0 ["a", "b"]
    ⟨∅, fun _ => none, true⟩ rfl

/-- C9 (counterexample): a pipeline job whose extractor/re-muxer pair
exits with codes (1, 0) — a failure — is reported as terminal failure
after a single `start_stream` invocation although `MAX_RETRIES = 3`
retries were available: `ytbot.py`'s queue drain never restarts the
pair. -/
theorem c9_pair_never_retried_counterexample :
    (process_queue_job (1, 0)).1 = false ∧
    (process_queue_job (1, 0)).2 = 1 ∧ 0 < Ytb.MAX_RETRIES := by
  decide

end Ytb.Ytbot

namespace Ytb.DataApi

/-- Helper: unfolding one failing step of `start_streamlink`. -/
theorem start_streamlink_false_step (attempt : Nat → Bool) (r : Nat)
    (h : start_streamlink attempt r = false) :
    attempt r = false ∧
      (r < Ytb.MAX_RETRIES → start_streamlink attempt (r + 1) = false) := by
  rw [start_streamlink] at h
  by_cases ha : attempt r
  · simp [ha] at h
  · refine ⟨by simpa using ha, fun hr => ?_⟩
    rwa [if_neg (by simpa using ha), if_pos hr] at h

/-- C9 (amended): only the single-process streamlink runner of
`ytbot_youtube_data_api_v3.py` retries — it reports terminal failure only
after the initial attempt and all `MAX_RETRIES` retries have failed —
while the extractor/re-muxer pair supervisor of `ytbot.py` makes exactly
one `start_stream` attempt per job, with no restart. -/
theorem c9_retry_only_in_single_process_runner :
    (∀ attempt : Nat → Bool, start_streamlink attempt 0 = false →
        ∀ k, k ≤ Ytb.MAX_RETRIES → attempt k = false) ∧
    (∀ rc : Int × Int, (Ytb.Ytbot.process_queue_job rc).2 = 1) := by
  constructor
  · intro attempt h k hk
    obtain ⟨a0, h1⟩ := start_streamlink_false_step attempt 0 h
    obtain ⟨a1, h2⟩ := start_streamlink_false_step attempt 1 (h1 (by decide))
    obtain ⟨a2, h3⟩ := start_streamlink_false_step attempt 2 (h2 (by decide))
    obtain ⟨a3, _⟩ := start_streamlink_false_step attempt 3 (h3 (by decide))
    unfold Ytb.MAX_RETRIES at hk
    interval_cases k <;> assumption
  · intro rc; rfl

/-- C9 (witness): the amended theorem applied to the always-failing
attempt oracle. -/
theorem c9_retry_only_in_single_process_runner_witness :
    ((fun _ => false) : Nat → Bool) 2 = false :=
  c9_retry_only_in_single_process_runner.1 (fun _ => false)
    (by simp [start_streamlink, Ytb.MAX_RETRIES]) 2 (by decide)

end Ytb.DataApi

namespace Ytb.VideoQueue

/-- C5 (counterexample): two `add_video` calls issued before the first
created drain task starts both observe `processing = false` and each
spawns a drain; after both task bodies start, two drains are live
concurrently (`active = 2`), refuting "a second concurrent drain is never
started". -/
theorem c5_two_drains_counterexample :
    qrun qinit [.add "a", .add "b", .startDrain, .startDrain] =
      some ⟨["a", "b"], true, 0, 2⟩ ∧
    liveDrains ⟨["a", "b"], true, 0, 2⟩ = 2 := by
  decide

/-- Helper: the guarded-interleaving invariant — at most one live drain,
and the `processing` flag tracks whether a drain is active. -/
theorem reachSeq_invariant {s : QState} (h : ReachSeq s) :
    liveDrains s ≤ 1 ∧ (s.processing = true ↔ s.active = 1) := by
  induction h with
  | init => exact ⟨by decide, by simp [qinit]⟩
  | step hreach hstep hadd ih =>
      rename_i s e s2
      obtain ⟨q, proc, pend, act⟩ := s
      simp only [liveDrains] at ih ⊢
      obtain ⟨ihsum, ihiff⟩ := ih
      cases e with
      | add url =>
          have hp : pend = 0 := hadd url rfl
          simp only [qstep, Option.some.injEq] at hstep
          subst hstep
          cases proc with
          | true =>
              simp only at ihiff ⊢
              exact ⟨by simp; omega, by simpa using ihiff⟩
          | false =>
              have hact : act = 0 := by
                rcases Nat.eq_or_lt_of_le ihsum with h | h
                · by_contra hc
                  have : act = 1 := by omega
                  exact absurd (ihiff.mpr this) (by simp)
                · omega
              simp only at ihiff ⊢
              refine ⟨by simp; omega, by simp [hact]⟩
      | startDrain =>
          simp only [qstep] at hstep
          by_cases hp : pend = 0
          · simp [hp] at hstep
          · rw [if_neg (by simpa using hp)] at hstep
            simp only [Option.some.injEq] at hstep
            subst hstep
            exact ⟨by simp; omega, by simp; omega⟩
      | popJob =>
          simp only [qstep] at hstep
          cases q with
          | nil => simp at hstep
          | cons a rest =>
              dsimp only at hstep
              by_cases ha : act = 0
              · simp [ha] at hstep
              · rw [if_neg (by simpa using ha)] at hstep
                simp only [Option.some.injEq] at hstep
                subst hstep
                exact ⟨by simpa using ihsum, by simpa using ihiff⟩
      | exitDrain =>
          simp only [qstep] at hstep
          by_cases hg : act = 0 ∨ q ≠ []
          · rw [if_pos (by simpa using hg)] at hstep
            cases hstep
          · rw [if_neg (by simpa using hg)] at hstep
            simp only [Option.some.injEq] at hstep
            subst hstep
            push_neg at hg
            have h1 : act = 1 := by omega
            have hpend : pend = 0 := by omega
            exact ⟨by simp; omega, by simp; omega⟩

/-- C5 (amended): at most one drain is live at a time PROVIDED each
created drain task begins executing (and so sets the `processing` flag)
before any further `add_video` call; without that scheduling assumption a
burst of adds spawns a second concurrent drain (see the
counterexample). -/
theorem c5_single_drain_under_prompt_start {s : QState} (h : ReachSeq s) :
    liveDrains s ≤ 1 :=
  (reachSeq_invariant h).1

/-- C5 (witness): the amended bound at the state reached by one add
followed by the drain start. -/
theorem c5_single_drain_under_prompt_start_witness :
    liveDrains ⟨["a"], true, 0, 1⟩ ≤ 1 := by
  have h1 : ReachSeq ⟨["a"], false, 1, 0⟩ :=
    @ReachSeq.step qinit (.add "a") ⟨["a"], false, 1, 0⟩ ReachSeq.init (by decide)
      (fun _ _ => rfl)
  have h2 : ReachSeq ⟨["a"], true, 0, 1⟩ :=
    @ReachSeq.step ⟨["a"], false, 1, 0⟩ .startDrain ⟨["a"], true, 0, 1⟩ h1 (by decide)
      (fun url hu => by cases hu)
  exact c5_single_drain_under_prompt_start h2

end Ytb.VideoQueue

namespace Ytb.TabMonitor

/-- C7 (counterexample): the host `evilyoutube.com` is not the expected
video platform, yet the validator accepts and normalizes the URL, because
the source tests `"youtube.com" in parsed.netloc` (substring), not host
identity. -/
theorem c7_substring_host_counterexample :
    validate_urls [⟨"https", "evilyoutube.com", "/c"⟩] = ["https://evilyoutube.com/c"] ∧
    hostIsExpectedPlatform "evilyoutube.com" = false := by
  decide

/-- C7 (amended): a string is produced by the validator exactly when some
input URL has a non-empty scheme, a non-empty host CONTAINING
"youtube.com" as a substring, and the string is that URL's normalization
(scheme + host + path with trailing slashes stripped); URLs failing the
substring test contribute nothing. -/
theorem c7_validator_characterization (urls : List ParsedUrl) (s : String) :
    s ∈ validate_urls urls ↔ ∃ p ∈ urls, acceptUrl p = true ∧ s = cleanUrl p := by
  simp only [validate_urls, List.mem_filterMap]
  constructor
  · rintro ⟨p, hp, hf⟩
    split at hf
    · simp only [Option.some.injEq] at hf
      exact ⟨p, hp, by assumption, hf.symm⟩
    · cases hf
  · rintro ⟨p, hp, ha, rfl⟩
    exact ⟨p, hp, by rw [if_pos ha]⟩

/-- Helper: the chunks of a list flatten back to the list. -/
theorem chunksOf_flatten {α : Type} (n : Nat) (hn : n ≠ 0) :
    ∀ l : List α, (chunksOf n l).flatten = l := by
  suffices H : ∀ (m : Nat) (l : List α), l.length = m → (chunksOf n l).flatten = l by
    exact fun l => H l.length l rfl
  intro m
  induction m using Nat.strong_induction_on with
  | _ m ih =>
      intro l hl
      rw [chunksOf]
      by_cases h1 : l = []
      · simp [h1]
      · rw [dif_neg (by simp [h1]), dif_neg hn]
        rw [List.flatten_cons]
        have hl0 : 0 < l.length := List.length_pos.mpr h1
        rw [ih (l.drop n).length (by
          simp only [List.length_drop]
          omega) (l.drop n) rfl]
        exact List.take_append_drop n l

/-- Helper: membership in a left fold of unions. -/
theorem mem_foldl_union (x : String) (sets : List (Finset String))
    (acc : Finset String) :
    x ∈ sets.foldl (· ∪ ·) acc ↔ x ∈ acc ∨ ∃ s ∈ sets, x ∈ s := by
  induction sets generalizing acc with
  | nil => simp
  | cons s rest ih =>
      rw [List.foldl_cons, ih]
      simp [Finset.mem_union, or_assoc]

/-- Helper: membership in the chunked accumulation of `monitor_tabs`. -/
theorem mem_foldl_chunks (x : String) (chunks : List (List FetchResult))
    (acc : Finset String) :
    x ∈ chunks.foldl
        (fun all_video_ids chunk =>
          (chunk.map process_channel).foldl (· ∪ ·) all_video_ids) acc ↔
      x ∈ acc ∨ ∃ c ∈ chunks, ∃ r ∈ c, x ∈ process_channel r := by
  induction chunks generalizing acc with
  | nil => simp
  | cons c rest ih =>
      rw [List.foldl_cons, ih, mem_foldl_union]
      simp only [List.mem_map, List.mem_cons]
      constructor
      · rintro (⟨hx | ⟨s, ⟨r, hr, rfl⟩, hxs⟩⟩ | ⟨c2, hc2, r, hr, hx⟩)
        · exact Or.inl hx
        · exact Or.inr ⟨c, Or.inl rfl, r, hr, hxs⟩
        · exact Or.inr ⟨c2, Or.inr hc2, r, hr, hx⟩
      · rintro (hx | ⟨c2, hc | hc, r, hr, hx⟩)
        · exact Or.inl (Or.inl hx)
        · subst hc
          exact Or.inl (Or.inr ⟨process_channel r, ⟨r, hr, rfl⟩, hx⟩)
        · exact Or.inr ⟨c2, hc, r, hr, hx⟩

/-- C8: a failing probe (exception, falsy info, missing `"entries"` key,
or `entries = None`) yields the empty ID set without propagating, and the
chunked fan-out collects exactly the union of the per-probe ID sets, so a
failing probe contributes `∅` without suppressing the other probes'
results. -/
theorem c8_probe_failures_isolated_union :
    (∀ outcomes : List FetchResult, ∀ x : String,
        x ∈ monitor_tabs outcomes ↔ ∃ r ∈ outcomes, x ∈ process_channel r) ∧
    process_channel .err = ∅ ∧
    process_channel (.ok none) = ∅ ∧
    (∀ entries, process_channel (.ok (some ⟨false, entries⟩)) = ∅) ∧
    (∀ b, process_channel (.ok (some ⟨b, none⟩)) = ∅) := by
  refine ⟨?_, rfl, rfl, fun entries => rfl, fun b => ?_⟩
  · intro outcomes x
    rw [monitor_tabs, mem_foldl_chunks]
    simp only [Finset.not_mem_empty, false_or]
    constructor
    · rintro ⟨c, hc, r, hr, hx⟩
      refine ⟨r, ?_, hx⟩
      rw [← chunksOf_flatten 3 (by decide) outcomes]
      exact List.mem_flatten.mpr ⟨c, hc, hr⟩
    · rintro ⟨r, hr, hx⟩
      rw [← chunksOf_flatten 3 (by decide) outcomes] at hr
      obtain ⟨c, hc, hrc⟩ := List.mem_flatten.mp hr
      exact ⟨c, hc, r, hrc, hx⟩
  · cases b <;> rfl

end Ytb.TabMonitor
